import Mathlib

/-!
Verification development for the memory_map process inspector.

The definitions below are a shallow embedding of the Rust sources:
machine integers (u64, usize) are modelled as Nat (all bit operations
used by the code stay below 2^64, so no wrap-around occurs), strings
are modelled as lists of characters, files are modelled as lists of
byte values, and fallible code returns Except.
-/

/-- Page size constant from src/proc_utils/process/memory.rs. -/
def LINUX_PAGE_SIZE : Nat := 4096

/-- PageLocation from memory.rs: RAM page-frame number, SWAP type and
offset, or NONE. -/
inductive PageLocation where
  | RAM (pfn : Nat)
  | SWAP (swap_type : Nat) (swap_offset : Nat)
  | NONE
deriving DecidableEq, Repr

/-- PageFrame from memory.rs: decoded form of one 64-bit pagemap word. -/
structure PageFrame where
  page_location : PageLocation
  is_file_page : Bool
  is_soft_dirty : Bool
deriving DecidableEq, Repr

/-- PageFrame::new from memory.rs, translated operation for operation.
In particular the soft-dirty test is the source's expression
page_index AND (55 shifted left by 1), i.e. a mask of 110, not bit 55. -/
def PageFrame.new (page_index : Nat) : PageFrame :=
  let ram_flag := (page_index &&& (1 <<< 63)) != 0
  let swap_flag := (page_index &&& (1 <<< 62)) != 0
  let page_location :=
    if ram_flag then
      PageLocation.RAM (page_index &&& ((1 <<< 55) - 1))
    else if swap_flag then
      PageLocation.SWAP (page_index &&& 0b11111) ((page_index >>> 5) &&& ((1 <<< 50) - 1))
    else
      PageLocation.NONE
  let is_file_page := (page_index &&& (1 <<< 61)) != 0
  let is_soft_dirty := (page_index &&& (55 <<< 1)) != 0
  { page_location := page_location,
    is_file_page := is_file_page,
    is_soft_dirty := is_soft_dirty }

/-- PageFrame::is_previous_page from memory.rs: run-merge test used by
the region physical-mapper. -/
def PageFrame.is_previous_page (self other : PageFrame) : Bool :=
  if self.is_file_page != other.is_file_page || self.is_soft_dirty != other.is_soft_dirty then
    false
  else
    match self.page_location, other.page_location with
    | PageLocation.RAM pfn1, PageLocation.RAM pfn2 => pfn1 + 1 == pfn2
    | PageLocation.SWAP t1 o1, PageLocation.SWAP t2 o2 => t1 == t2 && o1 + 1 == o2
    | _, _ => false

/-- Spec-side encoder for a PageFrame: builds a 64-bit word with the
documented bit positions (bit 63 RAM flag with pfn in bits 0-54; bit 62
swap flag with swap_type in bits 0-4 and swap_offset in bits 5-54;
bit 61 file-page flag; bit 55 soft-dirty flag). It follows the words of
the spec, to be compared against the decoder PageFrame.new. -/
def encode_page_frame (f : PageFrame) : Nat :=
  (match f.page_location with
   | PageLocation.RAM pfn => (1 <<< 63) ||| pfn
   | PageLocation.SWAP t o => (1 <<< 62) ||| t ||| (o <<< 5)
   | PageLocation.NONE => 0)
  ||| (if f.is_file_page then 1 <<< 61 else 0)
  ||| (if f.is_soft_dirty then 1 <<< 55 else 0)

namespace MemoryPermissions

/-- Flag values of the bitflags block in memory.rs, as a u8 bit set. -/
def READ : Nat := 0x01

/-- WRITE flag of MemoryPermissions. -/
def WRITE : Nat := 0x02

/-- EXECUTE flag of MemoryPermissions. -/
def EXECUTE : Nat := 0x04

/-- SHARED flag of MemoryPermissions. -/
def SHARED : Nat := 0x08

/-- The empty permission set. -/
def empty : Nat := 0

/-- MemoryPermissions::new_from_str from memory.rs. The source indexes
bytes 0 to 3 of the permission string; inputs of at least four
characters are in the function's domain (shorter inputs abort in the
source; here out-of-range indexing yields a space character, which
matches none of the tested letters). -/
def new_from_str (perm_str : List Char) : Nat :=
  let permissions := empty
  let permissions := if perm_str.getD 0 ' ' = 'r' then permissions ||| READ else permissions
  let permissions := if perm_str.getD 1 ' ' = 'w' then permissions ||| WRITE else permissions
  let permissions := if perm_str.getD 2 ' ' = 'x' then permissions ||| EXECUTE else permissions
  let permissions := if perm_str.getD 3 ' ' = 's' then permissions ||| SHARED else permissions
  permissions

end MemoryPermissions

/-- PageFrameRegion from memory.rs: a stored frame together with the
length of the run it closes. -/
structure PageFrameRegion where
  frame : PageFrame
  len : Nat
deriving DecidableEq, Repr

/-- The PageFrameMap contents: the source uses a HashMap from the first
virtual page index of a run to its PageFrameRegion; it is modelled as
the association list of inserted (key, value) pairs in insertion order
(all inserted keys are distinct, strictly increasing run starts). -/
def PageFrameMap := List (Nat × PageFrameRegion)

/-- MemoryRegion from memory.rs (the dev and inode columns are ignored
by the source). -/
structure MemoryRegion where
  v_region_start : Nat
  v_region_end : Nat
  permissions : Nat
  offset : Nat
  pathname : Option (List Char)
  physical_regions : Option (List (Nat × PageFrameRegion))
deriving DecidableEq, Repr

/-- The run-compression loop of MemoryRegion::fill_physical_maps
(memory.rs lines 209-223): walks the remaining (frame, page index)
pairs holding the last frame and the open run's start page; a pair that
neither equals the last frame nor continues it closes the run; the
trailing run is closed with length page_index_end minus run start. -/
def fill_loop (page_index_end : Nat) :
    PageFrame → Nat → List (PageFrame × Nat) → List (Nat × PageFrameRegion)
  | last_frame, v_start, [] =>
    [(v_start, { frame := last_frame, len := page_index_end - v_start })]
  | last_frame, v_start, (page_frame, v_page) :: rest =>
    if last_frame ≠ page_frame ∧ last_frame.is_previous_page page_frame = false then
      (v_start, { frame := last_frame, len := v_page - v_start }) ::
        fill_loop page_index_end page_frame v_page rest
    else
      fill_loop page_index_end page_frame v_start rest

/-- Core of MemoryRegion::fill_physical_maps after the words have been
read: decode every word, pair the frames with the page indices
page_index_start up to (excluding) page_index_end as the source's zip
does, and run-compress; an empty pairing stores no map. -/
def fill_words (words : List Nat) (page_index_start page_index_end : Nat) :
    Option (List (Nat × PageFrameRegion)) :=
  let page_frames := (words.map PageFrame.new).zip
    (List.range' page_index_start (page_index_end - page_index_start))
  match page_frames with
  | [] => none
  | (first_frame, first_page) :: rest =>
    some (fill_loop page_index_end first_frame first_page rest)

/-- Model of File::read into a zeroed buffer of n bytes at seek
position pos: the available bytes are copied and the rest of the
buffer keeps its zeros; the returned byte count is ignored by the
source, so a short read is not distinguishable here. -/
def read_buf (file : List Nat) (pos n : Nat) : List Nat :=
  let avail := (file.drop pos).take n
  avail ++ List.replicate (n - avail.length) 0

/-- Little-endian decoding of a byte buffer into 64-bit words,
modelling read_u64_into with native endianness on a little-endian
host. -/
def bytes_to_words : List Nat → List Nat
  | b0 :: b1 :: b2 :: b3 :: b4 :: b5 :: b6 :: b7 :: rest =>
    (b0 + 256 * (b1 + 256 * (b2 + 256 * (b3 + 256 * (b4 + 256 * (b5 + 256 * (b6 + 256 * b7)))))))
      :: bytes_to_words rest
  | _ => []

/-- Error type for pagemap access; the pure model of seek and read
never produces it, mirroring that the source's happy path treats a
short read as success. -/
inductive PagemapError where
  | PagemapIo
deriving DecidableEq, Repr

/-- MemoryRegion::fill_physical_maps from memory.rs, over a pagemap
file modelled as its list of bytes: compute the page range, seek to
page_index_start times 8, request (page_index_end - page_index_start
+ 1) times 8 bytes, decode words, run-compress, and store the map (or
none when the zip is empty). The source's read error path is an
environmental I/O failure which cannot arise in the pure file model. -/
def MemoryRegion.fill_physical_maps (self : MemoryRegion) (pagemap : List Nat) :
    Except PagemapError MemoryRegion :=
  let page_index_start := self.v_region_start / LINUX_PAGE_SIZE
  let page_index_end := self.v_region_end / LINUX_PAGE_SIZE
  let page_start_bytes := page_index_start * 8
  let read_length_bytes := (page_index_end - page_index_start + 1) * 8
  let byte_buf := read_buf pagemap page_start_bytes read_length_bytes
  let u64_buf := bytes_to_words byte_buf
  Except.ok { self with physical_regions := fill_words u64_buf page_index_start page_index_end }

/-- Sum of the stored run lengths of a page-frame map. -/
def lensum (m : List (Nat × PageFrameRegion)) : Nat :=
  (m.map (fun e => e.2.len)).sum

/-- The run-compression loop closes runs whose lengths telescope: from
any state, the lengths it emits over pages v, v+1, ... sum to
page_index_end minus the current run start. -/
theorem fill_loop_lensum (page_index_end : Nat) :
    ∀ (n : Nat) (F : List PageFrame) (v v_start : Nat) (last_frame : PageFrame),
    n ≤ F.length → v_start ≤ v → v + n ≤ page_index_end →
    lensum (fill_loop page_index_end last_frame v_start (F.zip (List.range' v n))) =
      page_index_end - v_start := by
  intro n
  induction n with
  | zero =>
    intro F v v_start last_frame _ _ _
    simp [List.range', lensum, fill_loop]
  | succ n ih =>
    intro F v v_start last_frame h1 h2 h3
    match F with
    | [] => simp at h1
    | f :: F' =>
      rw [List.range'_succ, List.zip_cons_cons]
      simp only [fill_loop]
      split
      · have hih := ih F' (v + 1) v f (by simpa using h1) (by omega) (by omega)
        simp only [lensum, List.map_cons, List.sum_cons] at hih ⊢
        omega
      · exact ih F' (v + 1) v_start f (by simpa using h1) (by omega) (by omega)

/-- C4 (amended): run compression is not lossless, but it does
preserve the page count of the region: whenever the region is
nonempty and enough words were read, the stored map exists and its run
lengths sum to exactly the number of pages page_index_end -
page_index_start. -/
theorem c4_amended (words : List Nat) (page_index_start page_index_end : Nat)
    (h1 : page_index_start < page_index_end)
    (h2 : page_index_end - page_index_start ≤ words.length) :
    ∃ m, fill_words words page_index_start page_index_end = some m ∧
      lensum m = page_index_end - page_index_start := by
  match words with
  | [] => simp at h2; omega
  | w :: ws =>
    obtain ⟨n, hn⟩ : ∃ n, page_index_end - page_index_start = n + 1 :=
      ⟨page_index_end - page_index_start - 1, by omega⟩
    have heq : fill_words (w :: ws) page_index_start page_index_end =
        some (fill_loop page_index_end (PageFrame.new w) page_index_start
          ((ws.map PageFrame.new).zip (List.range' (page_index_start + 1) n))) := by
      simp only [fill_words, List.map_cons]
      rw [hn, List.range'_succ, List.zip_cons_cons]
    refine ⟨_, heq, ?_⟩
    have hlen : n ≤ (ws.map PageFrame.new).length := by
      simp only [List.length_map]
      simp only [List.length_cons] at h2
      omega
    exact fill_loop_lensum page_index_end n (ws.map PageFrame.new)
      (page_index_start + 1) page_index_start (PageFrame.new w) hlen (by omega) (by omega)

/-- Witness for c4_amended at a concrete one-page input. -/
theorem c4_amended_witness :
    0 < 1 ∧ 1 - 0 ≤ ([9223372036854775808] : List Nat).length ∧
    ∃ m, fill_words [9223372036854775808] 0 1 = some m ∧ lensum m = 1 - 0 :=
  ⟨by decide, by decide, c4_amended [9223372036854775808] 0 1 (by decide) (by decide)⟩

/-- C4 (counterexample): two different decoded per-page frame
sequences of a three-page region produce identical stored maps, so no
expansion of the stored PageFrameRegion entries can reconstruct the
original per-page sequence. The words decode to RAM(5), RAM(5), RAM(6)
and RAM(4), RAM(5), RAM(6): the first merges by structural equality
then succession, the second by succession twice, both ending in the
same tail frame and length. -/
theorem c4_counterexample :
    fill_words [9223372036854775813, 9223372036854775813, 9223372036854775814] 0 3 =
      fill_words [9223372036854775812, 9223372036854775813, 9223372036854775814] 0 3 ∧
    ([9223372036854775813, 9223372036854775813, 9223372036854775814].map PageFrame.new) ≠
      ([9223372036854775812, 9223372036854775813, 9223372036854775814].map PageFrame.new) :=
  ⟨rfl, by decide⟩

/-- C1: the decoder's soft-dirty test. The source computes page_index
AND (55 shifted left by 1), a mask of 110; the claim prescribes bit 55.
At word 2 to the 55th power the claim says soft-dirty is set but the
code yields false; at word 2 the claim says clear but the code yields
true. -/
theorem c1_code_eval :
    ((PageFrame.new 36028797018963968).is_soft_dirty = false ∧
      (36028797018963968 >>> 55) &&& 1 = 1) ∧
    ((PageFrame.new 2).is_soft_dirty = true ∧ (2 >>> 55) &&& 1 = 0) := by
  decide

/-- C2: encode-then-decode round trip fails on the code. The frame
with location NONE and only the soft-dirty flag set encodes to the
word 2 to the 55th power, which the decoder maps back to a frame with
soft-dirty clear, because of the soft-dirty mask bug in PageFrame::new. -/
theorem c2_code_eval :
    PageFrame.new (encode_page_frame
      { page_location := PageLocation.NONE, is_file_page := false, is_soft_dirty := true }) ≠
    { page_location := PageLocation.NONE, is_file_page := false, is_soft_dirty := true } := by
  decide

/-- The S4 input of the spec: four little-endian pagemap words
0x8000000000001000, 0x8000000000001001, 0x8000000000001002,
0x8000000000001004 as the byte content of the pagemap file. -/
def s4_pagemap : List Nat :=
  [0x00, 0x10, 0, 0, 0, 0, 0, 0x80,
   0x01, 0x10, 0, 0, 0, 0, 0, 0x80,
   0x02, 0x10, 0, 0, 0, 0, 0, 0x80,
   0x04, 0x10, 0, 0, 0, 0, 0, 0x80]

/-- A four-page region starting at virtual address 0. -/
def s4_region : MemoryRegion :=
  { v_region_start := 0, v_region_end := 16384, permissions := 0, offset := 0,
    pathname := none, physical_regions := none }

/-- What the code actually stores for the S4 input: three entries.
The soft-dirty mask bug makes the frames of words 0x...1002 and
0x...1004 soft-dirty, which breaks the first run after two pages, and
each closed run stores its tail frame, not its first frame. -/
def s4_actual_map : List (Nat × PageFrameRegion) :=
  [(0, { frame := { page_location := PageLocation.RAM 0x1001,
                    is_file_page := false, is_soft_dirty := false }, len := 2 }),
   (2, { frame := { page_location := PageLocation.RAM 0x1002,
                    is_file_page := false, is_soft_dirty := true }, len := 1 }),
   (3, { frame := { page_location := PageLocation.RAM 0x1004,
                    is_file_page := false, is_soft_dirty := true }, len := 1 })]

/-- C3 (counterexample): on the S4 words the region physical-mapper
produces three PageFrameRegion entries, not the two the claim states,
and the produced map differs from the claimed two-entry map. -/
theorem c3_counterexample :
    s4_region.fill_physical_maps s4_pagemap =
      Except.ok { s4_region with physical_regions := some s4_actual_map } ∧
    s4_actual_map.length = 3 ∧
    s4_actual_map ≠
      [(0, { frame := { page_location := PageLocation.RAM 0x1000,
                        is_file_page := false, is_soft_dirty := false }, len := 3 }),
       (3, { frame := { page_location := PageLocation.RAM 0x1004,
                        is_file_page := false, is_soft_dirty := false }, len := 1 })] :=
  ⟨rfl, rfl, by decide⟩

/-- C3 (amended): the exact map the code produces on the S4 input -
entries keyed 0, 2 and 3, of lengths 2, 1 and 1, each storing the tail
frame of its run. -/
theorem c3_amended :
    s4_region.fill_physical_maps s4_pagemap =
      Except.ok { s4_region with physical_regions := some s4_actual_map } := rfl

/-- A pagemap file of only 8 bytes: one word 0x8000000000000008. -/
def short_pagemap : List Nat := [8, 0, 0, 0, 0, 0, 0, 128]

/-- A one-page region starting at virtual address 0; its pagemap read
requests two words, 16 bytes. -/
def one_page_region : MemoryRegion :=
  { v_region_start := 0, v_region_end := 4096, permissions := 0, offset := 0,
    pathname := none, physical_regions := none }

/-- The single run the code stores when it silently accepts the short
read: the one available word decoded, the zero-padded second word
dropped by the zip. -/
def short_read_map : List (Nat × PageFrameRegion) :=
  [(0, { frame := { page_location := PageLocation.RAM 8,
                    is_file_page := false, is_soft_dirty := true }, len := 1 })]

/-- C7: the mapper requests (page_end - page_start + 1) * 8 = 16 bytes
but the file delivers only 8; the code ignores the count returned by
read and succeeds anyway, decoding the zero-filled remainder, instead
of surfacing a PagemapIo error. -/
theorem c7_code_eval :
    short_pagemap.length = 8 ∧
    (one_page_region.v_region_end / LINUX_PAGE_SIZE -
      one_page_region.v_region_start / LINUX_PAGE_SIZE + 1) * 8 = 16 ∧
    one_page_region.fill_physical_maps short_pagemap =
      Except.ok { one_page_region with physical_regions := some short_read_map } :=
  ⟨rfl, rfl, rfl⟩

/-- ProcessState from proc_utils/process/mod.rs. -/
inductive ProcessState where
  | Running
  | Sleeping
  | Waiting
  | Zombie
  | Stopped
  | Tracing
  | Dead
  | Idle
deriving DecidableEq, Repr

/-- ProcessState::new_from_code from mod.rs; the source panics on an
unknown state character, modelled as none. -/
def ProcessState.new_from_code (state_code : Char) : Option ProcessState :=
  match state_code with
  | 'R' => some ProcessState.Running
  | 'S' => some ProcessState.Sleeping
  | 'D' => some ProcessState.Waiting
  | 'Z' => some ProcessState.Zombie
  | 'T' => some ProcessState.Stopped
  | 't' => some ProcessState.Tracing
  | 'X' => some ProcessState.Dead
  | 'I' => some ProcessState.Idle
  | _ => none

/-- ProcessMemoryMap from mod.rs. -/
structure ProcessMemoryMap where
  regions : List MemoryRegion
deriving DecidableEq, Repr

/-- ProcessInformation from mod.rs. -/
structure ProcessInformation where
  pid : Nat
  comm : List Char
  state : ProcessState
  memory : Option ProcessMemoryMap
deriving DecidableEq, Repr

/-- Failure modes of the stat parser. malformedStat is the typed error
of the spec's error taxonomy; the source never constructs it - it
aborts instead, and each abort site is modelled by its own panic
constructor: the out-of-bounds slice when no token ends with a right
parenthesis, the reversed slice when the joined name is a lone right
parenthesis, the field-count assertion, the pid parse unwrap, and the
state-character unwrap and match panic. -/
inductive StatError where
  | malformedStat
  | panicJoinSlice
  | panicStripSlice
  | panicFieldCount
  | panicPidParse
  | panicStateChar
  | panicStateCode
deriving DecidableEq, Repr

/-- Whitespace test for the tokenizer (the inputs here are ASCII). -/
def is_rust_whitespace (c : Char) : Bool :=
  c = ' ' || c = '\t' || c = '\n' || c = '\r'

/-- Model of str::split_whitespace: maximal runs of non-whitespace
characters, in order; whitespace runs separate tokens and are
discarded. -/
def split_whitespace : List Char → List (List Char)
  | [] => []
  | c :: cs =>
    let rest := split_whitespace cs
    if is_rust_whitespace c then rest
    else
      match cs with
      | [] => [c] :: rest
      | d :: _ =>
        if is_rust_whitespace d then [c] :: rest
        else
          match rest with
          | [] => [[c]]
          | t :: ts => (c :: t) :: ts

/-- Joining tokens with single spaces, as the source's join of the
comm slice does. -/
def join_space : List (List Char) → List Char
  | [] => []
  | [t] => t
  | t :: ts => t ++ ' ' :: join_space ts

/-- The str::ends_with right-parenthesis test of the comm join loop. -/
def ends_rparen (t : List Char) : Bool :=
  t.getLast? == some ')'

/-- The comm join loop of get_process_metadata (io.rs lines 31-34):
index of the first token that ends with a right parenthesis, relative
to the list it scans (the source scans from token index 1). -/
def find_rparen : List (List Char) → Option Nat
  | [] => none
  | t :: ts => if ends_rparen t then some 0 else (find_rparen ts).map (· + 1)

/-- Model of str::parse::<usize> on the pid token: all-digit tokens
parse to their value, anything else is a parse failure (the optional
sign accepted by Rust does not occur in stat files). -/
def parse_usize (s : List Char) : Option Nat :=
  if s ≠ [] ∧ s.all Char.isDigit then
    some (s.foldl (fun acc c => acc * 10 + (c.toNat - 48)) 0)
  else
    none

/-- The tail of get_process_metadata after the comm end was found at
relative index k in rest (io.rs lines 36-46 and new_from_stat): join
tokens 1 to 1+k with single spaces, strip the first and last character
(a one-character join aborts, the source's reversed slice), assert
exactly 52 fields after the drain, then parse pid from token 0 and the
state from the first character of the token after the joined comm.
The memory field of full mode is filled by the process assembler,
modelled separately; here it stays none. -/
def join_and_parse_stat (t0 : List Char) (rest : List (List Char)) (k : Nat) :
    Except StatError ProcessInformation :=
  let joined := join_space (rest.take (k + 1))
  if joined.length < 2 then Except.error StatError.panicStripSlice
  else if 1 + rest.length - k ≠ 52 then Except.error StatError.panicFieldCount
  else
    match parse_usize t0 with
    | none => Except.error StatError.panicPidParse
    | some pid =>
      match (rest.drop (k + 1)).head? with
      | none => Except.error StatError.panicStateChar
      | some [] => Except.error StatError.panicStateChar
      | some (c :: _) =>
        match ProcessState.new_from_code c with
        | none => Except.error StatError.panicStateCode
        | some st =>
          Except.ok { pid := pid, comm := (joined.drop 1).dropLast, state := st, memory := none }

/-- get_process_metadata from io.rs on the already-tokenized stat
fields: scan from token index 1 for a token ending with a right
parenthesis; if none exists the source's slice
stat_fields[1..(name_end+1)] is out of bounds and aborts. -/
def get_process_metadata_fields (stat_fields : List (List Char)) :
    Except StatError ProcessInformation :=
  match stat_fields with
  | [] => Except.error StatError.panicJoinSlice
  | t0 :: rest =>
    match find_rparen rest with
    | none => Except.error StatError.panicJoinSlice
    | some k => join_and_parse_stat t0 rest k

/-- get_process_metadata from io.rs on the raw stat file content. -/
def get_process_metadata (proc_metadata : List Char) : Except StatError ProcessInformation :=
  get_process_metadata_fields (split_whitespace proc_metadata)

/-- When only the last of the comm tokens ends with a right
parenthesis, the join loop stops exactly at that token. -/
theorem find_rparen_only_last :
    ∀ (ct rest : List (List Char)) (hne : ct ≠ []),
    (∀ t ∈ ct.dropLast, ends_rparen t = false) →
    ends_rparen (ct.getLast hne) = true →
    find_rparen (ct ++ rest) = some (ct.length - 1) := by
  intro ct
  induction ct with
  | nil => intro rest hne _ _; exact absurd rfl hne
  | cons t ct ih =>
    intro rest hne hmid hlast
    cases ct with
    | nil =>
      have ht : ends_rparen t = true := by simpa using hlast
      simp [find_rparen, ht]
    | cons t2 ts =>
      have ht : ends_rparen t = false := by
        apply hmid
        simp [List.dropLast_cons₂]
      have hlast2 : ends_rparen ((t2 :: ts).getLast (by simp)) = true := by
        rw [List.getLast_cons] at hlast
        exact hlast
      have hmid2 : ∀ x ∈ (t2 :: ts).dropLast, ends_rparen x = false := by
        intro x hx
        apply hmid
        rw [List.dropLast_cons₂]
        exact List.mem_cons_of_mem t hx
      have ih2 := ih rest (by simp) hmid2 hlast2
      rw [List.cons_append, find_rparen, ht]
      simp only [Bool.false_eq_true, if_false]
      rw [ih2]
      simp [List.length_cons]

/-- C5 (amended): the parser preserves comm only up to whitespace
collapsing. For a stat token list whose comm tokens are followed by
exactly 50 field tokens and whose only right-parenthesis-ending comm
token is the last one, a successful parse returns the comm tokens
rejoined with single spaces and stripped of their first and last
character - interior whitespace runs of the original content are
collapsed to single spaces rather than preserved verbatim; interior
right parentheses before the final token survive, and the S1 instance
yields pid 42, comm bad-rparen-name, state Running. -/
theorem c5_amended (t0 : List Char) (ct rest : List (List Char)) (pid : Nat)
    (c : Char) (cs : List Char) (st : ProcessState)
    (hne : ct ≠ [])
    (hmid : ∀ t ∈ ct.dropLast, ends_rparen t = false)
    (hlast : ends_rparen (ct.getLast hne) = true)
    (hjoin : 2 ≤ (join_space ct).length)
    (hrest : rest.length = 50)
    (hpid : parse_usize t0 = some pid)
    (hhead : rest.head? = some (c :: cs))
    (hst : ProcessState.new_from_code c = some st) :
    get_process_metadata_fields (t0 :: (ct ++ rest)) =
      Except.ok { pid := pid, comm := ((join_space ct).drop 1).dropLast,
                  state := st, memory := none } := by
  have hfind := find_rparen_only_last ct rest hne hmid hlast
  have hlen : 0 < ct.length := List.length_pos.mpr hne
  have hk1 : ct.length - 1 + 1 = ct.length := by omega
  show (match find_rparen (ct ++ rest) with
        | none => Except.error StatError.panicJoinSlice
        | some k => join_and_parse_stat t0 (ct ++ rest) k) = _
  rw [hfind]
  show join_and_parse_stat t0 (ct ++ rest) (ct.length - 1) = _
  unfold join_and_parse_stat
  rw [hk1, List.take_left]
  rw [if_neg (by omega)]
  rw [if_neg (by simp only [List.length_append, hrest]; omega)]
  rw [hpid, List.drop_left, hhead]
  simp only [hst]

/-- Witness for c5_amended: the S1 token list 42, open-paren bad,
rparen name rparen, R, then 49 numeric fields parses to pid 42, comm
bad rparen name, state Running. -/
theorem c5_amended_witness :
    get_process_metadata_fields (['4','2'] ::
      ([['(','b','a','d'], [')','n','a','m','e',')']] ++ (['R'] :: List.replicate 49 ['1']))) =
      Except.ok { pid := 42, comm := ['b','a','d',' ',')','n','a','m','e'],
                  state := ProcessState.Running, memory := none } :=
  c5_amended ['4','2'] [['(','b','a','d'], [')','n','a','m','e',')']]
    (['R'] :: List.replicate 49 ['1']) 42 'R' [] ProcessState.Running
    (by decide) (by decide) (by decide) (by decide) (by simp) (by decide) rfl rfl

/-- A stat content whose comm contains two consecutive interior
spaces, followed by the state field and 49 numeric fields. -/
def c5_content : List Char :=
  String.toList "42 (a  b) R " ++ join_space (List.replicate 49 ['1'])

/-- C5 (counterexample): the content wraps the comm a-space-space-b in
parentheses, the parse succeeds, and the returned comm is a-space-b:
the interior double space of the original comm is collapsed, so
interior whitespace is not preserved. -/
theorem c5_counterexample :
    c5_content = String.toList "42 (" ++ ['a', ' ', ' ', 'b'] ++ String.toList ") R " ++
      join_space (List.replicate 49 ['1']) ∧
    get_process_metadata c5_content =
      Except.ok { pid := 42, comm := ['a', ' ', 'b'],
                  state := ProcessState.Running, memory := none } ∧
    (['a', ' ', 'b'] : List Char) ≠ ['a', ' ', ' ', 'b'] :=
  ⟨rfl, rfl, by decide⟩

/-- C6 (amended): whenever no token from index 1 onward ends with a
right parenthesis, or the token count after comm joining is not
exactly 52, the stat parser aborts - an out-of-bounds slice, a
reversed strip slice, or the field-count assertion - and never with
the typed error MalformedStat, which the source cannot produce. -/
theorem c6_amended (stat_fields : List (List Char))
    (h : find_rparen (stat_fields.drop 1) = none ∨
      ∃ k, find_rparen (stat_fields.drop 1) = some k ∧ stat_fields.length - k ≠ 52) :
    ∃ e, get_process_metadata_fields stat_fields = Except.error e ∧
      e ≠ StatError.malformedStat := by
  match stat_fields with
  | [] => exact ⟨StatError.panicJoinSlice, rfl, by decide⟩
  | t0 :: rest =>
    rcases h with h | ⟨k, hk, hcount⟩
    · have h' : find_rparen rest = none := by simpa using h
      show (∃ e, (match find_rparen rest with
            | none => Except.error StatError.panicJoinSlice
            | some k => join_and_parse_stat t0 rest k) = Except.error e ∧
          e ≠ StatError.malformedStat)
      rw [h']
      exact ⟨StatError.panicJoinSlice, rfl, by decide⟩
    · have hk' : find_rparen rest = some k := by simpa using hk
      show (∃ e, (match find_rparen rest with
            | none => Except.error StatError.panicJoinSlice
            | some k => join_and_parse_stat t0 rest k) = Except.error e ∧
          e ≠ StatError.malformedStat)
      rw [hk']
      show (∃ e, join_and_parse_stat t0 rest k = Except.error e ∧ e ≠ StatError.malformedStat)
      unfold join_and_parse_stat
      by_cases hstrip : (join_space (rest.take (k + 1))).length < 2
      · rw [if_pos hstrip]
        exact ⟨StatError.panicStripSlice, rfl, by decide⟩
      · rw [if_neg hstrip]
        have hc : 1 + rest.length - k ≠ 52 := by
          simp only [List.length_cons] at hcount
          omega
        rw [if_pos hc]
        exact ⟨StatError.panicFieldCount, rfl, by decide⟩

/-- Witness for c6_amended: the single-token content 42 has no token
ending in a right parenthesis, and the parser aborts with the join
slice panic, not MalformedStat. -/
theorem c6_amended_witness :
    (find_rparen (([['4','2']] : List (List Char)).drop 1) = none ∨
      ∃ k, find_rparen (([['4','2']] : List (List Char)).drop 1) = some k ∧
        ([['4','2']] : List (List Char)).length - k ≠ 52) ∧
    ∃ e, get_process_metadata_fields [['4','2']] = Except.error e ∧
      e ≠ StatError.malformedStat :=
  ⟨Or.inl rfl, c6_amended [['4','2']] (Or.inl rfl)⟩

/-- C6 (counterexample): on the token list 42, x - where no
concatenation from index 1 ends with a right parenthesis - the parser
fails, but with the out-of-bounds slice abort, not with the typed
MalformedStat error the claim states. -/
theorem c6_counterexample :
    get_process_metadata_fields [['4','2'], ['x']] = Except.error StatError.panicJoinSlice ∧
    StatError.panicJoinSlice ≠ StatError.malformedStat :=
  ⟨rfl, by decide⟩

/-- C10: MemoryPermissions::new_from_str is total on inputs of at
least four characters and has no error path; each flag is set if and
only if the byte at its position is exactly the corresponding letter,
and any other character silently leaves the flag absent. -/
theorem c10_confirmed (perm_str : List Char) (h : 4 ≤ perm_str.length) :
    (MemoryPermissions.new_from_str perm_str &&& MemoryPermissions.READ ≠ 0 ↔
      perm_str.getD 0 ' ' = 'r') ∧
    (MemoryPermissions.new_from_str perm_str &&& MemoryPermissions.WRITE ≠ 0 ↔
      perm_str.getD 1 ' ' = 'w') ∧
    (MemoryPermissions.new_from_str perm_str &&& MemoryPermissions.EXECUTE ≠ 0 ↔
      perm_str.getD 2 ' ' = 'x') ∧
    (MemoryPermissions.new_from_str perm_str &&& MemoryPermissions.SHARED ≠ 0 ↔
      perm_str.getD 3 ' ' = 's') := by
  match perm_str, h with
  | a :: b :: c :: d :: t, _ =>
    by_cases h0 : a = 'r' <;>
      by_cases h1 : b = 'w' <;>
      by_cases h2 : c = 'x' <;>
      by_cases h3 : d = 's' <;>
      simp only [MemoryPermissions.new_from_str, MemoryPermissions.empty,
        MemoryPermissions.READ, MemoryPermissions.WRITE, MemoryPermissions.EXECUTE,
        MemoryPermissions.SHARED, List.getD_cons_zero, List.getD_cons_succ,
        h0, h1, h2, h3, if_true, if_false, eq_self_iff_true, iff_true, iff_false,
        ite_true, ite_false] <;>
      simp [h0, h1, h2, h3] <;> decide

/-- Witness for c10_confirmed at the input zzzz, which violates the
maps invariant that position 3 is s or p, yet parses with every flag
absent. -/
theorem c10_witness :
    4 ≤ (['z', 'z', 'z', 'z'] : List Char).length ∧
    ((MemoryPermissions.new_from_str ['z', 'z', 'z', 'z'] &&& MemoryPermissions.READ ≠ 0 ↔
      (['z', 'z', 'z', 'z'] : List Char).getD 0 ' ' = 'r') ∧
    (MemoryPermissions.new_from_str ['z', 'z', 'z', 'z'] &&& MemoryPermissions.WRITE ≠ 0 ↔
      (['z', 'z', 'z', 'z'] : List Char).getD 1 ' ' = 'w') ∧
    (MemoryPermissions.new_from_str ['z', 'z', 'z', 'z'] &&& MemoryPermissions.EXECUTE ≠ 0 ↔
      (['z', 'z', 'z', 'z'] : List Char).getD 2 ' ' = 'x') ∧
    (MemoryPermissions.new_from_str ['z', 'z', 'z', 'z'] &&& MemoryPermissions.SHARED ≠ 0 ↔
      (['z', 'z', 'z', 'z'] : List Char).getD 3 ' ' = 's')) :=
  ⟨by decide, c10_confirmed ['z', 'z', 'z', 'z'] (by decide)⟩

/-- The region loop of ProcessMemoryMap::new_memory_map (mod.rs lines
92-111) over already-parsed maps lines. The Bool is whether the
pagemap handle is live; fill i r models the outcome of
region.fill_physical_maps for the i-th line against the handle (its
seek or read against the filesystem may fail, which the pure file
model cannot express, so the outcome is a parameter): on ok the
region's physical map is stored, on error the handle is cleared and
every later region is pushed untouched; every line yields a region
and the loop itself never fails. -/
def new_memory_map_loop
    (fill : Nat → MemoryRegion → Except PagemapError (Option (List (Nat × PageFrameRegion)))) :
    Bool → Nat → List MemoryRegion → List MemoryRegion
  | _, _, [] => []
  | false, i, r :: rs => r :: new_memory_map_loop fill false (i + 1) rs
  | true, i, r :: rs =>
    match fill i r with
    | Except.ok m => { r with physical_regions := m } :: new_memory_map_loop fill true (i + 1) rs
    | Except.error _ => r :: new_memory_map_loop fill false (i + 1) rs

/-- ProcessMemoryMap::new_memory_map from mod.rs over parsed regions:
pagemap_open says whether map_physical was set and the pagemap file
opened. -/
def ProcessMemoryMap.new_memory_map
    (regions : List MemoryRegion) (pagemap_open : Bool)
    (fill : Nat → MemoryRegion → Except PagemapError (Option (List (Nat × PageFrameRegion)))) :
    ProcessMemoryMap :=
  { regions := new_memory_map_loop fill pagemap_open 0 regions }

/-- Unfolding equation of the loop for a live handle. -/
theorem new_memory_map_loop_cons_true (fill : Nat → MemoryRegion →
      Except PagemapError (Option (List (Nat × PageFrameRegion))))
    (i : Nat) (r : MemoryRegion) (rs : List MemoryRegion) :
    new_memory_map_loop fill true i (r :: rs) =
      match fill i r with
      | Except.ok m => { r with physical_regions := m } :: new_memory_map_loop fill true (i + 1) rs
      | Except.error _ => r :: new_memory_map_loop fill false (i + 1) rs := rfl

/-- Once the pagemap handle is cleared, the loop passes every
remaining region through unchanged, with no physical data added. -/
theorem new_memory_map_loop_disabled (fill : Nat → MemoryRegion →
      Except PagemapError (Option (List (Nat × PageFrameRegion)))) :
    ∀ (i : Nat) (rs : List MemoryRegion), new_memory_map_loop fill false i rs = rs := by
  intro i rs
  induction rs generalizing i with
  | nil => rfl
  | cons r rs ih => simp [new_memory_map_loop, ih]

/-- C8: if every region before r fills successfully and the pagemap
seek or read fails at r, the assembler pushes r and all remaining
regions unchanged (no physical data), having disabled the pagemap
handle, and still returns the full region list - the process record
does not fail. -/
theorem c8_confirmed (fill : Nat → MemoryRegion →
      Except PagemapError (Option (List (Nat × PageFrameRegion)))) :
    ∀ (rs₁ : List MemoryRegion) (j : Nat) (r : MemoryRegion) (rs₂ : List MemoryRegion),
    (∀ k (hk : k < rs₁.length), (fill (j + k) (rs₁.get ⟨k, hk⟩)).isOk = true) →
    fill (j + rs₁.length) r = Except.error PagemapError.PagemapIo →
    new_memory_map_loop fill true j (rs₁ ++ r :: rs₂) =
      new_memory_map_loop fill true j rs₁ ++ r :: rs₂ := by
  intro rs₁
  induction rs₁ with
  | nil =>
    intro j r rs₂ _ h₂
    simp only [List.length_nil, Nat.add_zero] at h₂
    rw [List.nil_append, new_memory_map_loop_cons_true, h₂]
    show r :: new_memory_map_loop fill false (j + 1) rs₂ =
      new_memory_map_loop fill true j [] ++ r :: rs₂
    rw [new_memory_map_loop_disabled]
    rfl
  | cons a rs₁ ih =>
    intro j r rs₂ h₁ h₂
    have hfa := h₁ 0 (by simp)
    obtain ⟨m, hm⟩ : ∃ m, fill j a = Except.ok m := by
      cases hfb : fill (j + 0) ((a :: rs₁).get ⟨0, by simp⟩) with
      | ok m => exact ⟨m, by simpa using hfb⟩
      | error e => rw [hfb] at hfa; simp [Except.isOk, Except.toBool] at hfa
    have h₁x : ∀ k (hk : k < rs₁.length), (fill (j + 1 + k) (rs₁.get ⟨k, hk⟩)).isOk = true := by
      intro k hk
      have hh := h₁ (k + 1) (by simpa using Nat.succ_lt_succ hk)
      rw [show j + (k + 1) = j + 1 + k by omega] at hh
      simpa using hh
    have h₂x : fill (j + 1 + rs₁.length) r = Except.error PagemapError.PagemapIo := by
      rw [show j + 1 + rs₁.length = j + (a :: rs₁).length by simp; omega]
      exact h₂
    rw [List.cons_append, new_memory_map_loop_cons_true, hm,
      new_memory_map_loop_cons_true, hm]
    simp only [List.cons_append]
    rw [ih (j + 1) r rs₂ h₁x h₂x]

/-- A concrete fill outcome for the c8 witness: the first region's
pagemap read succeeds with an empty region, every later one fails. -/
def c8_fill (i : Nat) (_ : MemoryRegion) :
    Except PagemapError (Option (List (Nat × PageFrameRegion))) :=
  if i = 0 then Except.ok none else Except.error PagemapError.PagemapIo

/-- First witness region. -/
def c8_region_a : MemoryRegion :=
  { v_region_start := 0, v_region_end := 4096, permissions := 0, offset := 0,
    pathname := none, physical_regions := none }

/-- Second witness region, whose pagemap read fails. -/
def c8_region_b : MemoryRegion :=
  { v_region_start := 4096, v_region_end := 8192, permissions := 0, offset := 0,
    pathname := none, physical_regions := none }

/-- Third witness region, processed after the failure. -/
def c8_region_c : MemoryRegion :=
  { v_region_start := 8192, v_region_end := 12288, permissions := 0, offset := 0,
    pathname := none, physical_regions := none }

/-- Witness for c8_confirmed: with the second region's pagemap read
failing, the third region passes through without physical data and
the record is still complete. -/
theorem c8_witness :
    new_memory_map_loop c8_fill true 0 ([c8_region_a] ++ c8_region_b :: [c8_region_c]) =
      new_memory_map_loop c8_fill true 0 [c8_region_a] ++ c8_region_b :: [c8_region_c] :=
  c8_confirmed c8_fill [c8_region_a] 0 c8_region_b [c8_region_c]
    (fun k hk => by
      have hz : k = 0 := by
        simp only [List.length_cons, List.length_nil] at hk
        omega
      subst hz
      rfl)
    rfl

/-- Model of a std sync_channel with capacity one, the hand-off of the
polling engine: a single slot and whether the receiving side is still
alive. -/
structure SyncChannel (α : Type) where
  slot : Option α
  receiver_alive : Bool

/-- std TrySendError as matched by the producer loop in io.rs: Full
and Disconnected, each returning the rejected value. -/
inductive TrySendError (α : Type) where
  | Full (x : α)
  | Disconnected (x : α)

/-- Model of SyncSender::try_send on a capacity-one channel: never
waits; Disconnected when the receiver is gone, Full (leaving the slot
unchanged) when the slot is occupied, otherwise the value is stored. -/
def SyncChannel.try_send {α : Type} (ch : SyncChannel α) (x : α) :
    SyncChannel α × Option (TrySendError α) :=
  if ch.receiver_alive = false then (ch, some (TrySendError.Disconnected x))
  else
    match ch.slot with
    | some _ => (ch, some (TrySendError.Full x))
    | none => ({ ch with slot := some x }, none)

/-- Model of Receiver::try_recv followed by .ok() as in
ProcScanner::process_info: never waits; takes the waiting value if
present, otherwise reports none (both the Empty and the Disconnected
error collapse to none under .ok()). -/
def SyncChannel.try_recv {α : Type} (ch : SyncChannel α) : SyncChannel α × Option α :=
  match ch.slot with
  | some x => ({ ch with slot := none }, some x)
  | none => (ch, none)

/-- A snapshot: the Vec of ProcessInformation one scan produces. -/
def Snapshot := List ProcessInformation

/-- Whether the producer loop body continues or breaks out. -/
inductive ScanThreadStep where
  | continued
  | terminated
deriving DecidableEq, Repr

/-- One iteration of the producer loop of ProcScanner::new (io.rs
lines 110-134) after the scan produced process_list: try_send, and on
error match Full (do nothing, continue) or Disconnected (break). -/
def scan_loop_step (ch : SyncChannel Snapshot) (process_list : Snapshot) :
    SyncChannel Snapshot × ScanThreadStep :=
  match SyncChannel.try_send ch process_list with
  | (ch2, none) => (ch2, ScanThreadStep.continued)
  | (ch2, some (TrySendError.Full _)) => (ch2, ScanThreadStep.continued)
  | (ch2, some (TrySendError.Disconnected _)) => (ch2, ScanThreadStep.terminated)

/-- ProcScanner::process_info from io.rs: the consumer-side poll. -/
def ProcScanner.process_info (ch : SyncChannel Snapshot) : SyncChannel Snapshot × Option Snapshot :=
  SyncChannel.try_recv ch

/-- C9: over the channel model, (i) with the slot full and the
consumer alive the producer's step leaves the channel unchanged -
dropping the new snapshot, keeping the slot's contents - and
continues; (ii) with the consumer disconnected the producer exits its
loop; (iii) the consumer poll takes the waiting snapshot when present
and (iv) reports no new data otherwise. The steps are total functions
of the state, the model's rendering of never blocking. -/
theorem c9_confirmed :
    (∀ (ch : SyncChannel Snapshot) (s x : Snapshot), ch.slot = some x →
      ch.receiver_alive = true → scan_loop_step ch s = (ch, ScanThreadStep.continued)) ∧
    (∀ (ch : SyncChannel Snapshot) (s : Snapshot), ch.receiver_alive = false →
      scan_loop_step ch s = (ch, ScanThreadStep.terminated)) ∧
    (∀ (ch : SyncChannel Snapshot) (x : Snapshot), ch.slot = some x →
      ProcScanner.process_info ch = ({ ch with slot := none }, some x)) ∧
    (∀ ch : SyncChannel Snapshot, ch.slot = none → ProcScanner.process_info ch = (ch, none)) := by
  refine ⟨?_, ?_, ?_, ?_⟩
  · intro ch s x hx ha
    simp [scan_loop_step, SyncChannel.try_send, ha, hx]
  · intro ch s ha
    simp [scan_loop_step, SyncChannel.try_send, ha]
  · intro ch x hx
    simp [ProcScanner.process_info, SyncChannel.try_recv, hx]
  · intro ch hn
    simp [ProcScanner.process_info, SyncChannel.try_recv, hn]

/-- Witness for c9_confirmed at concrete channel states holding an
empty snapshot. -/
theorem c9_witness :
    scan_loop_step { slot := some [], receiver_alive := true } [] =
      ({ slot := some [], receiver_alive := true }, ScanThreadStep.continued) ∧
    scan_loop_step { slot := none, receiver_alive := false } [] =
      ({ slot := none, receiver_alive := false }, ScanThreadStep.terminated) ∧
    ProcScanner.process_info { slot := some ([] : Snapshot), receiver_alive := true } =
      ({ slot := none, receiver_alive := true }, some []) ∧
    ProcScanner.process_info ({ slot := none, receiver_alive := true } : SyncChannel Snapshot) =
      ({ slot := none, receiver_alive := true }, none) :=
  ⟨c9_confirmed.1 _ _ _ rfl rfl, c9_confirmed.2.1 _ _ rfl, c9_confirmed.2.2.1 _ _ rfl,
    c9_confirmed.2.2.2 _ rfl⟩
